import Mathlib

/-!
Verification development for the ECD (Electronic Customs Declaration)
extraction engine.  The Python sources are shallowly embedded as executable
Lean definitions:

  * `src/ecd_format_detector.py`   → format classifier (`detectFormat`)
  * `src/extract_ecd_generic.py`   → section locator, header / party / goods
                                     extractors, record assembler, comparator
  * `src/extract_ecd_customs.py`   → the customs-variant reference-document
                                     collector (`collectDocsCustoms`)

Modelling conventions:
  * Python `str.strip` is modelled by `pyStrip` (ASCII whitespace, which is
    what occurs at line ends in these documents).
  * Python `str.isdigit` and the regex class `\d` are modelled over the ASCII
    digits `0-9` (the decimal digits occurring in these documents).
  * The regex class `\w` (Unicode in Python 3) is modelled over ASCII
    alphanumerics, `_`, and the Cyrillic block U+0400–U+04FF — the scripts
    occurring in ECD documents.
  * Dictionaries whose keys are created conditionally are modelled with the
    `Slot` type below, which distinguishes an absent key from a key that is
    present with value `None`.
-/

/-- A dictionary slot: either the key is absent, or it is present and holds an
optional value (`Slot.val none` models a key explicitly set to Python `None`). -/
inductive Slot (α : Type) where
  | absent : Slot α
  | val : Option α → Slot α
deriving DecidableEq, Repr

/-- A key that is written only on a successful match: `none` stays absent,
`some v` becomes a present key holding `v`. -/
def toSlot {α : Type} : Option α → Slot α
  | none => Slot.absent
  | some v => Slot.val (some v)

/-! ### Character classes -/

/-- ASCII decimal digit (model of Python `str.isdigit` / regex `\d`). -/
def isDig (c : Char) : Bool := '0' ≤ c && c ≤ '9'

/-- ASCII upper-case letter (regex class `[A-Z]`). -/
def isUpperAZ (c : Char) : Bool := 'A' ≤ c && c ≤ 'Z'

/-- Regex `\s` (ASCII whitespace as it occurs in these documents). -/
def isWS (c : Char) : Bool :=
  c = ' ' || c = '\t' || c = '\n' || c = '\r' || c = '\x0b' || c = '\x0c'

/-- Regex `\w`: ASCII alphanumerics, underscore, and the Cyrillic block. -/
def isWordChar (c : Char) : Bool :=
  c.isAlphanum || c = '_' || (0x400 ≤ c.toNat && c.toNat ≤ 0x4FF)

/-- Python `str.strip` (ASCII-whitespace model), computed on the character
list so that every use evaluates by plain kernel reduction. -/
def pyStrip (s : String) : String :=
  (((s.toList.dropWhile isWS).reverse.dropWhile isWS).reverse).asString

/-- Python `int` on a digits-only string. -/
def digitsToNat (s : String) : Nat :=
  s.toList.foldl (fun acc c => acc * 10 + (c.toNat - 48)) 0

/-- Python `s.split(',')` (single-character separator). -/
def splitCommasAux : List Char → List Char → List String
  | [], cur => [cur.reverse.asString]
  | c :: rest, cur =>
      if c = ',' then cur.reverse.asString :: splitCommasAux rest []
      else splitCommasAux rest (c :: cur)

/-- Python `s.split(',')`. -/
def splitCommas (s : String) : List String := splitCommasAux s.toList []

/-- `s.replace(',', '.')` — single-character replacement. -/
def replaceCommaDot (s : String) : String :=
  (s.toList.map (fun c => if c = ',' then '.' else c)).asString

/-- Python `str.lower` restricted to ASCII and the Cyrillic letters used by
the classifier's markers. -/
def pyLowerChar (c : Char) : Char :=
  if 'A' ≤ c && c ≤ 'Z' then Char.ofNat (c.toNat + 32)
  else if 0x400 ≤ c.toNat && c.toNat ≤ 0x40F then Char.ofNat (c.toNat + 0x50)
  else if 0x410 ≤ c.toNat && c.toNat ≤ 0x42F then Char.ofNat (c.toNat + 0x20)
  else c

/-- Python `str.lower` on a whole string. -/
def pyLower (s : String) : String := (s.toList.map pyLowerChar).asString

/-! ### Substring search (Python `in`, `startswith`) -/

/-- Does `s` start with `pat` (character lists)? -/
def startsWithL : List Char → List Char → Bool
  | [], _ => true
  | _ :: _, [] => false
  | p :: ps, c :: cs => p == c && startsWithL ps cs

/-- Does `s` contain `pat` as a contiguous substring (character lists)? -/
def containsL (s pat : List Char) : Bool :=
  match s with
  | [] => startsWithL pat []
  | _ :: cs => startsWithL pat s || containsL cs pat

/-- Python `pat in s`. -/
def strContains (s pat : String) : Bool := containsL s.toList pat.toList

/-- Python `s.startswith(pat)`. -/
def strStartsWith (s pat : String) : Bool := startsWithL pat.toList s.toList

/-- Python `str.isdigit` (ASCII model): nonempty and all decimal digits. -/
def pyIsdigit (s : String) : Bool := s ≠ "" && s.toList.all isDig

/-! ### Anchored shape patterns used by the extractors -/

/-- Regex `^\d{n}$` after stripping. -/
def isDigitsLen (n : Nat) (s : String) : Bool :=
  s.length = n && s.toList.all isDig

/-- Regex `^\d{4,7}$`. -/
def isRefNum (s : String) : Bool :=
  4 ≤ s.length && s.length ≤ 7 && s.toList.all isDig

/-- Regex `^[A-Z]{2}$`. -/
def isUpper2 (s : String) : Bool :=
  match s.toList with
  | [a, b] => isUpperAZ a && isUpperAZ b
  | _ => false

/-- Regex `^[A-Z]{2,3}$`. -/
def isUpper2or3 (s : String) : Bool :=
  match s.toList with
  | [a, b] => isUpperAZ a && isUpperAZ b
  | [a, b, c] => isUpperAZ a && isUpperAZ b && isUpperAZ c
  | _ => false

/-- Regex `^([A-Z]{2}\d{13})$` — the sender TIN anchor. -/
def isTin (s : String) : Bool :=
  match s.toList with
  | a :: b :: rest =>
      isUpperAZ a && isUpperAZ b && rest.length = 13 && rest.all isDig
  | _ => false

/-- Regex `^[A-Z]{2}\d+$` — a TIN-shaped line after the receiver anchor. -/
def isTinShaped (s : String) : Bool :=
  match s.toList with
  | a :: b :: rest =>
      isUpperAZ a && isUpperAZ b && rest ≠ [] && rest.all isDig
  | _ => false

/-- One half of the vehicle registration: `[A-Z]{2}\d{4}[A-Z]{2}`. -/
def vehCore : List Char → Bool
  | [a, b, c, d, e, f, g, h] =>
      isUpperAZ a && isUpperAZ b && isDig c && isDig d && isDig e && isDig f &&
      isUpperAZ g && isUpperAZ h
  | _ => false

/-- Regex `^([A-Z]{2}\d{4}[A-Z]{2}(?:/[A-Z]{2}\d{4}[A-Z]{2})?)$`. -/
def isVehicle (s : String) : Bool :=
  let cs := s.toList
  vehCore cs ||
    (cs.length = 17 && vehCore (cs.take 8) && cs.getD 8 ' ' == '/' &&
      vehCore (cs.drop 9))

/-! ### The section-locator landmark patterns -/

/-- Regex `^(EX|IM)[A-Z]{2}$` on the stripped line. -/
def eximExact (s : String) : Bool :=
  match s.toList with
  | [a, b, c, d] =>
      ((a == 'E' && b == 'X') || (a == 'I' && b == 'M')) && isUpperAZ c && isUpperAZ d
  | _ => false

/-- Does `\b(EX|IM)[A-Z]{2}\b` match starting at the head of the list
(the left boundary is checked by the caller)? -/
def eximHere : List Char → Bool
  | a :: b :: c :: d :: rest =>
      ((a == 'E' && b == 'X') || (a == 'I' && b == 'M')) && isUpperAZ c && isUpperAZ d &&
      (match rest with
       | [] => true
       | e :: _ => !isWordChar e)
  | _ => false

/-- `re.search(r'\b(EX|IM)[A-Z]{2}\b', line)`: scan every start position,
tracking the previous character for the word boundary. -/
def eximSearchAux (prev : Option Char) : List Char → Bool
  | [] => false
  | c :: cs =>
      ((match prev with | none => true | some p => !isWordChar p) && eximHere (c :: cs)) ||
        eximSearchAux (some c) cs

/-- `re.search(r'\b(EX|IM)[A-Z]{2}\b', line)` on the raw line. -/
def eximSearch (s : String) : Bool := eximSearchAux none s.toList

/-- `'LRN :' in line or 'LRN:' in line or 'LRN ' in line`. -/
def hasLRNLabel (line : String) : Bool :=
  strContains line "LRN :" || strContains line "LRN:" || strContains line "LRN "

/-- Either section-locator landmark fires on this line (exact declaration-type
code on the stripped line, or the word-boundary search on the raw line). -/
def eximLine (line : String) : Bool := eximExact (pyStrip line) || eximSearch line

/-! ### Index ranges and line access -/

/-- Python `range(a, b)` (empty when `b ≤ a`). -/
def pyRange (a b : Nat) : List Nat := List.range' a (b - a)

/-- The first index of `lines` satisfying `p`, scanning in order. -/
def firstIdxAux (p : String → Bool) : Nat → List String → Option Nat
  | _, [] => none
  | i, l :: rest => if p l then some i else firstIdxAux p (i + 1) rest

/-- First index of `lines` whose line satisfies `p`. -/
def firstIdxWhere (p : String → Bool) (lines : List String) : Option Nat :=
  firstIdxAux p 0 lines

/-- `get_line_safe`: the stripped line at `index`, or `""` out of range. -/
def getLineSafe (lines : List String) (i : Int) : String :=
  if 0 ≤ i ∧ i < (lines.length : Int) then pyStrip (lines.getD i.toNat "") else ""

/-- Raw line access at a (call-site guaranteed in-range) natural index. -/
def lineAt (lines : List String) (i : Nat) : String := lines.getD i ""

/-- The single-letter markers skipped by `find_next_nonempty_line`. -/
def skipMarkers : List String := ["а", "б", "в", "г"]

/-- Is this stripped line counted as "nonempty" by the line scanner? -/
def scanHit (lines : List String) (i : Int) : Option (Int × String) :=
  let line := pyStrip (if 0 ≤ i ∧ i < (lines.length : Int) then lineAt lines i.toNat
               else if -(lines.length : Int) ≤ i ∧ i < 0 then
                 lineAt lines (lines.length + i).toNat
               else "")
  if line ≠ "" ∧ ¬ skipMarkers.contains line then some (i, line) else none

/-- `find_next_nonempty_line(start, max_search)` (forward direction):
scan `range(start, min(len, start+max_search))`, return `(-1, "")` on failure.
Negative indices would wrap in Python; no modelled call site produces them. -/
def fnnFwd (lines : List String) (start : Int) (maxSearch : Nat) : Int × String :=
  let stop : Int := min (lines.length : Int) (start + maxSearch)
  let idxs : List Int := (List.range (stop - start).toNat).map (fun k => start + k)
  (idxs.findSome? (scanHit lines)).getD (-1, "")

/-- `find_next_nonempty_line(start, max_search, backward=True)`:
scan `range(start, max(0, start - max_search), -1)`. -/
def fnnBwd (lines : List String) (start : Int) (maxSearch : Nat) : Int × String :=
  let stop : Int := max 0 (start - maxSearch)
  let idxs : List Int := (List.range (start - stop).toNat).map (fun k => start - k)
  (idxs.findSome? (scanHit lines)).getD (-1, "")

/-! ### Section locator (`find_data_section`) -/

/-- `find_data_section`: first line where a declaration-type code matches
(exact or word-boundary search); otherwise two lines above the first LRN
label; otherwise the fixed default offset 80.  (`max(0, i-2)` is Nat
truncated subtraction here.) -/
def findDataSection (lines : List String) : Nat :=
  match firstIdxWhere eximLine lines with
  | some i => i
  | none =>
      match firstIdxWhere hasLRNLabel lines with
      | some i => i - 2
      | none => 80

/-! ### Format classifier (`ecd_format_detector.py`) -/

inductive ECDFormat where
  | standard
  | customs
  | unknown
deriving DecidableEq, Repr

/-- `7\s+референтен број\s+[\w\d]+/\d{4}` (IGNORECASE), match at head:
after "7", one-or-more whitespace, the caseless literal, one-or-more
whitespace, a maximal nonempty word-character run, "/", four digits. -/
def refNumHere (cs : List Char) : Bool :=
  match cs with
  | '7' :: rest =>
      match rest with
      | c :: _ =>
          isWS c &&
          (let afterWS := rest.dropWhile isWS
           let lit := "референтен број".toList
           startsWithL (lit.map pyLowerChar) (afterWS.map pyLowerChar) &&
           (let rest2 := afterWS.drop lit.length
            match rest2 with
            | c2 :: _ =>
                isWS c2 &&
                (let afterWS2 := rest2.dropWhile isWS
                 let run := afterWS2.takeWhile isWordChar
                 let rest3 := afterWS2.dropWhile isWordChar
                 run ≠ [] &&
                 (match rest3 with
                  | '/' :: d1 :: d2 :: d3 :: d4 :: _ =>
                      isDig d1 && isDig d2 && isDig d3 && isDig d4
                  | _ => false))
            | [] => false))
      | [] => false
  | _ => false

/-- Search helper: does `p` match at some start position of `cs`? -/
def searchAny (p : List Char → Bool) : List Char → Bool
  | [] => p []
  | c :: cs => p (c :: cs) || searchAny p cs

/-- `re.search(r'7\s+референтен број\s+[\w\d]+/\d{4}', text, re.IGNORECASE)`. -/
def refNumSearch (text : String) : Bool := searchAny refNumHere text.toList

/-- `LRN\s*:\s*\d{2}MK`, match at head. -/
def lrnHere (cs : List Char) : Bool :=
  startsWithL "LRN".toList cs &&
  (let r1 := (cs.drop 3).dropWhile isWS
   match r1 with
   | ':' :: r2 =>
       (let r3 := r2.dropWhile isWS
        match r3 with
        | d1 :: d2 :: 'M' :: 'K' :: _ => isDig d1 && isDig d2
        | _ => false)
   | _ => false)

/-- `re.search(r'LRN\s*:\s*\d{2}MK', text)`. -/
def lrnSearch (text : String) : Bool := searchAny lrnHere text.toList

/-- `РДБ\s+\d`, match at head. -/
def rdbHere (cs : List Char) : Bool :=
  startsWithL "РДБ".toList cs &&
  (match cs.drop 3 with
   | c :: _ =>
       isWS c &&
       (match (cs.drop 3).dropWhile isWS with
        | d :: _ => isDig d
        | [] => false)
   | [] => false)

/-- `re.search(r'РДБ\s+\d', text)`. -/
def rdbSearch (text : String) : Bool := searchAny rdbHere text.toList

/-- The customs-variant indicator score (each matched indicator adds its
fixed weight). -/
def customsScore (text : String) : Nat :=
  (if strContains text "Consignor/Exporter" || strContains text "Consignor / Exporter"
   then 2 else 0) +
  (if strContains text "РБД" && !strContains text "РДБ" then 1 else 0) +
  (if refNumSearch text then 2 else 0) +
  (if strContains text "Ознаки и броеви - Број на контејнер" then 1 else 0)

/-- The standard-variant indicator score. -/
def standardScore (text : String) : Nat :=
  (if strContains text "Испраќач/Извозник" || strContains text "Испраќач / Извозник"
   then 2 else 0) +
  (if lrnSearch text then 2 else 0) +
  (if rdbSearch text then 1 else 0) +
  (if strContains (pyLower text) "тов.лист" || strContains (pyLower text) "товарен лист"
   then 1 else 0)

/-- The decision block of `detect_format`: strictly higher score wins,
provided it is at least 2; otherwise unknown. -/
def scoreDecision (c s : Nat) : ECDFormat :=
  if c > s ∧ c ≥ 2 then ECDFormat.customs
  else if s > c ∧ s ≥ 2 then ECDFormat.standard
  else ECDFormat.unknown

/-- `detect_format` on an already-acquired text sample (empty text returns
unknown before any indicator is computed). -/
def detectFormat (text : String) : ECDFormat :=
  if text = "" then ECDFormat.unknown
  else scoreDecision (customsScore text) (standardScore text)

/-! ### Header extractor (`extract_heahea`) -/

/-- The `HEAHEA` section of the accumulator dictionary: every key is created
only when its heuristic fires, so each field is a `Slot`. -/
structure Heahea where
  TotGroMasHEA307 : Slot Nat
  IdeOfMeaOfTraAtDHEA78 : Slot String
  NatOfMeaOfTraCroHEA87 : Slot String
  TraModAtBorHEA76 : Slot String
  CouOfDisCodHEA55 : Slot String
  CouOfDesCodHEA30 : Slot String
  ConIndHEA96 : Slot String
  DecPlaHEA394 : Slot String
deriving DecidableEq, Repr

/-- Total gross mass loop body: at the first line whose strip equals `KGM`,
take the immediately preceding safe line; record it when purely numeric.
The loop breaks at the first `KGM` line either way. -/
def totGroMasAux (lines : List String) : Nat → List String → Option Nat
  | _, [] => none
  | i, l :: rest =>
      if pyStrip l = "KGM" then
        (let m := getLineSafe lines ((i : Int) - 1)
         if pyIsdigit m then some (digitsToNat m) else none)
      else totGroMasAux lines (i + 1) rest

/-- The total-gross-mass heuristic of `extract_heahea`. -/
def extractTotGroMas (lines : List String) : Option Nat :=
  totGroMasAux lines 0 lines

/-- Transport-identity loop: the first stripped line in
`range(dsi, min(len, dsi+50))` matching the vehicle pattern; on a hit the
next nonempty line within 3 is the nationality when it is a bare two-letter
code. -/
def vehicleLoop (lines : List String) (dsi : Nat) : Option (String × Option String) :=
  (pyRange dsi (min lines.length (dsi + 50))).findSome? (fun i =>
    let line := pyStrip (lineAt lines i)
    if isVehicle line then
      let nl := (fnnFwd lines ((i : Int) + 1) 3).2
      some (line, if nl ≠ "" ∧ isUpper2 nl then some nl else none)
    else none)

/-- The digit strings accepted as a transport mode. -/
def modeDigits : List String := ["1", "2", "3", "4", "5", "6", "7", "8", "9"]

/-- Transport-mode loop: collect every digit line whose previous safe line is
a 2–3 letter code or whose next safe line mentions a currency; the last
candidate wins. -/
def traModLoop (lines : List String) (dsi : Nat) : Option String :=
  (pyRange dsi (min lines.length (dsi + 50))).foldl (fun acc i =>
    let line := pyStrip (lineAt lines i)
    if modeDigits.contains line then
      let prev := getLineSafe lines ((i : Int) - 1)
      let next := getLineSafe lines ((i : Int) + 1)
      if isUpper2or3 prev || strContains next "EUR" || strContains next "USD" then
        some line
      else acc
    else acc) none

/-- Dispatch-country loop.  A country-name line followed (within 3) by a bare
two-letter code sets the field and breaks; a bare `MK` line deep enough into
the data section sets the field only when still unset, without breaking. -/
def couOfDisLoop (lines : List String) (dsi : Nat) : List Nat → Option String → Option String
  | [], acc => acc
  | i :: rest, acc =>
      let line := pyStrip (lineAt lines i)
      if strContains line "СЕВЕРНА МАКЕДОНИЈА" || strContains line "МАКЕДОНИЈА" ||
          strContains line "MACEDONIA" then
        let nl := (fnnFwd lines ((i : Int) + 1) 3).2
        if nl ≠ "" ∧ isUpper2 nl then some nl
        else couOfDisLoop lines dsi rest acc
      else
        if line = "MK" ∧ i > dsi + 15 then
          let prev := getLineSafe lines ((i : Int) - 1)
          if ¬ strStartsWith prev "MK" ∧ ¬ pyIsdigit prev then
            match acc with
            | none => couOfDisLoop lines dsi rest (some line)
            | some v => couOfDisLoop lines dsi rest (some v)
          else couOfDisLoop lines dsi rest acc
        else couOfDisLoop lines dsi rest acc

/-- The dispatch-country heuristic over its search window. -/
def couOfDis (lines : List String) (dsi : Nat) : Option String :=
  couOfDisLoop lines dsi (pyRange dsi (min lines.length (dsi + 50))) none

/-- The destination country-name literals. -/
def countryNames : List String :=
  ["ФРАНЦИЈА", "ГЕРМАНИЈА", "ФРАНЦЕ", "FRANCE", "GERMANY", "ITALIA", "ИТАЛИЈА"]

/-- Inner code scan for the destination country: the first stripped line in
`range(i+1, min(len, i+5))` that is a bare two-letter code other than `MK`. -/
def couOfDesCodeScan (lines : List String) (i : Nat) : Option String :=
  (pyRange (i + 1) (min lines.length (i + 5))).findSome? (fun j =>
    let codeLine := pyStrip (lineAt lines j)
    if isUpper2 codeLine ∧ codeLine ≠ "MK" then some codeLine else none)

/-- The name loop inside the destination-country search: names are tried in
order; a name contained in the line triggers the code scan, and only a
successful scan breaks. -/
def couOfDesNames (lines : List String) (i : Nat) (line : String) :
    List String → Option String
  | [] => none
  | c :: cs =>
      if strContains line c then
        match couOfDesCodeScan lines i with
        | some code => some code
        | none => couOfDesNames lines i line cs
      else couOfDesNames lines i line cs

/-- Destination-country loop over the search window. -/
def couOfDes (lines : List String) (dsi : Nat) : Option String :=
  (pyRange dsi (min lines.length (dsi + 50))).findSome? (fun i =>
    couOfDesNames lines i (pyStrip (lineAt lines i)) countryNames)

/-- The delivery-term literals recognised after a container indicator. -/
def deliveryTerms : List String := ["CPT", "CIF", "FOB", "EXW", "FCA", "DAP"]

/-- Container-indicator loop: the first bare `0`/`1` line whose next nonempty
line within 3 is a delivery term. -/
def conInd (lines : List String) (dsi : Nat) : Option String :=
  (pyRange dsi (min lines.length (dsi + 50))).findSome? (fun i =>
    let line := pyStrip (lineAt lines i)
    if line = "0" ∨ line = "1" then
      let nl := (fnnFwd lines ((i : Int) + 1) 3).2
      if deliveryTerms.contains nl then some line else none
    else none)

/-- Declaration-place loop: the first bare 4-digit line whose next nonempty
line within 2 is a non-numeric description longer than 3 characters; the
field is the two joined with a space. -/
def decPla (lines : List String) (dsi : Nat) : Option String :=
  (pyRange dsi (min lines.length (dsi + 50))).findSome? (fun i =>
    let line := pyStrip (lineAt lines i)
    if isDigitsLen 4 line then
      let nl := (fnnFwd lines ((i : Int) + 1) 2).2
      if nl ≠ "" ∧ nl.length > 3 ∧ ¬ pyIsdigit nl then some (line ++ " " ++ nl)
      else none
    else none)

/-- `extract_heahea`: each header field is recovered independently; a failed
heuristic leaves its key absent. -/
def extractHeahea (lines : List String) (dsi : Nat) : Heahea :=
  { TotGroMasHEA307 := toSlot (extractTotGroMas lines)
  , IdeOfMeaOfTraAtDHEA78 := toSlot ((vehicleLoop lines dsi).map (fun r => r.1))
  , NatOfMeaOfTraCroHEA87 := toSlot ((vehicleLoop lines dsi).bind (fun r => r.2))
  , TraModAtBorHEA76 := toSlot (traModLoop lines dsi)
  , CouOfDisCodHEA55 := toSlot (couOfDis lines dsi)
  , CouOfDesCodHEA30 := toSlot (couOfDes lines dsi)
  , ConIndHEA96 := toSlot (conInd lines dsi)
  , DecPlaHEA394 := toSlot (decPla lines dsi) }

/-! ### Sender extractor (`extract_traexpex1`) -/

/-- The `TRAEXPEX1` section of the accumulator dictionary. -/
structure Traexpex1 where
  TINEX159 : Slot String
  NamEX17 : Slot String
  StrAndNumEX122 : Slot String
  CitEX124 : Slot String
  PosCodEX123 : Slot String
  CouEX125 : Slot String
deriving DecidableEq, Repr

/-- What the sender anchor loop records on a hit: the TIN line plus the
conditionally recorded name / address / city lines. -/
structure SenderHit where
  tin : String
  nam : Option String
  strAndNum : Option String
  cit : Option String
deriving DecidableEq, Repr

/-- The street-marker test on the candidate address line. -/
def isStreetLine (s : String) : Bool :=
  strContains s "ул." || strContains s "бул." || strContains (pyLower s) "str."

/-- Sender anchor loop: the first stripped line in
`range(dsi, min(len, dsi+20))` matching the TIN pattern; the next nonempty
line (within 2) is the name, the one after it the address when it carries a
street marker, and the city is the last comma-component of the address. -/
def senderLoop (lines : List String) (dsi : Nat) : Option SenderHit :=
  (pyRange dsi (min lines.length (dsi + 20))).findSome? (fun i =>
    let line := pyStrip (lineAt lines i)
    if isTin line then
      let r1 := fnnFwd lines ((i : Int) + 1) 2
      let nam := if r1.2 ≠ "" then some r1.2 else none
      let r2 := fnnFwd lines (r1.1 + 1) 2
      let strOk := r2.2 ≠ "" ∧ isStreetLine r2.2
      let strAndNum := if strOk then some r2.2 else none
      let cit := if strOk ∧ strContains r2.2 "," then
          some (pyStrip ((splitCommas r2.2).getLastD ""))
        else none
      some { tin := line, nam := nam, strAndNum := strAndNum, cit := cit }
    else none)

/-- `extract_traexpex1`: anchor on the TIN; postal code is unconditionally
`None`; the country is the TIN prefix, rendered in Cyrillic for `MK`. -/
def extractTraexpex1 (lines : List String) (dsi : Nat) : Traexpex1 :=
  let hit := senderLoop lines dsi
  { TINEX159 := toSlot (hit.map (fun h => h.tin))
  , NamEX17 := toSlot (hit.bind (fun h => h.nam))
  , StrAndNumEX122 := toSlot (hit.bind (fun h => h.strAndNum))
  , CitEX124 := toSlot (hit.bind (fun h => h.cit))
  , PosCodEX123 := Slot.val none
  , CouEX125 :=
      match hit with
      | none => Slot.absent
      | some h =>
          let cc := (h.tin.toList.take 2).asString
          Slot.val (some (if cc = "MK" then "МК" else cc)) }

/-! ### Receiver extractor (`extract_traconce1`) -/

/-- The `TRACONCE1` section of the accumulator dictionary. -/
structure Traconce1 where
  NamCE17 : Slot String
  StrAndNumCE122 : Slot String
  PosCodCE123 : Slot String
  CitCE124 : Slot String
  CouCE125 : Slot String
  TINCE159 : Slot String
deriving DecidableEq, Repr

/-- `re.search(r'(\d{4,6})\s+([^\n]+)$', address_line)` match at one start
position: a maximal digit run of length 4–6 followed by whitespace, then the
rest of the line (which must leave at least one character for group 2). -/
def postalHere (cs : List Char) : Option (String × String) :=
  let run := cs.takeWhile isDig
  let rest := cs.dropWhile isDig
  if 4 ≤ run.length ∧ run.length ≤ 6 then
    match rest with
    | c :: _ =>
        if isWS c then
          let wsRun := rest.takeWhile isWS
          let tail := rest.dropWhile isWS
          if tail ≠ [] then some (run.asString, tail.asString)
          else if 2 ≤ wsRun.length then
            some (run.asString, ((wsRun.drop (wsRun.length - 1)).asString))
          else none
        else none
    | [] => none
  else none

/-- Leftmost search for the postal-code pattern. -/
def postalSearchL : List Char → Option (String × String)
  | [] => none
  | c :: cs =>
      match postalHere (c :: cs) with
      | some r => some r
      | none => postalSearchL cs

/-- `re.search(r'(\d{4,6})\s+([^\n]+)$', s)` (the lines carry no interior
newline, so the trailing-anchor pattern reduces to "rest of the line"). -/
def postalSearch (s : String) : Option (String × String) := postalSearchL s.toList

/-- What the receiver anchor loop records on a hit. -/
structure ReceiverHit where
  cou : String
  strAndNum : Option String
  posCod : Option String
  cit : Option String
  nam : Option String
  tin : Option String
deriving DecidableEq, Repr

/-- Receiver anchor loop: the first stripped line in
`range(dsi+5, min(len, dsi+30))` that is a 4–7 digit reference number whose
previous line is a non-domestic two-letter country code.  The address sits
two lines and the name three lines before the anchor; a TIN-shaped line may
follow it. -/
def receiverLoop (lines : List String) (dsi : Nat) : Option ReceiverHit :=
  (pyRange (dsi + 5) (min lines.length (dsi + 30))).findSome? (fun i =>
    let line := pyStrip (lineAt lines i)
    if isRefNum line ∧ ¬ strStartsWith line "MK" ∧ 1 ≤ i then
      let countryLine := pyStrip (lineAt lines (i - 1))
      if isUpper2 countryLine ∧ countryLine ≠ "MK" ∧ countryLine ≠ "МК" then
        let addressLine := if 2 ≤ i then pyStrip (lineAt lines (i - 2)) else ""
        let addrOk := 2 ≤ i ∧ addressLine ≠ "" ∧ addressLine.length > 2
        let postal := if addrOk then postalSearch addressLine else none
        let nameLine := if 3 ≤ i then pyStrip (lineAt lines (i - 3)) else ""
        let tinLine := if i + 1 < lines.length then pyStrip (lineAt lines (i + 1)) else ""
        some
          { cou := countryLine
          , strAndNum := if addrOk then some addressLine else none
          , posCod := postal.map (fun p => p.1)
          , cit :=
              if addrOk then
                match postal with
                | some p => some (pyStrip p.2)
                | none => some addressLine
              else none
          , nam := if 3 ≤ i ∧ nameLine ≠ "" ∧ nameLine.length > 5 then some nameLine
                   else none
          , tin := if i + 1 < lines.length ∧ isTinShaped tinLine then some tinLine
                   else none }
      else none
    else none)

/-- The receiver record as it stands right after the anchor loop, before the
final unconditional overwrite of the TIN field. -/
def traconce1Pre (lines : List String) (dsi : Nat) : Traconce1 :=
  let hit := receiverLoop lines dsi
  { NamCE17 := toSlot (hit.bind (fun h => h.nam))
  , StrAndNumCE122 := toSlot (hit.bind (fun h => h.strAndNum))
  , PosCodCE123 := toSlot (hit.bind (fun h => h.posCod))
  , CitCE124 := toSlot (hit.bind (fun h => h.cit))
  , CouCE125 := toSlot (hit.map (fun h => h.cou))
  , TINCE159 := toSlot (hit.bind (fun h => h.tin)) }

/-- `extract_traconce1`: the anchor loop followed by the unconditional
`TINCE159 = None` assignment. -/
def extractTraconce1 (lines : List String) (dsi : Nat) : Traconce1 :=
  { traconce1Pre lines dsi with TINCE159 := Slot.val none }

/-! ### Goods item segmenter (`extract_gooitegds`) -/

structure ComCod where
  ComNomCMD1 : String
deriving DecidableEq, Repr

structure Package where
  KinOfPacGS23 : String
  NumOfPacGS24 : String
  MarNumOfPacGS21 : Option String
deriving DecidableEq, Repr

structure ProDoc where
  DocTypDC21 : String
  DocRefDC23 : String
deriving DecidableEq, Repr

/-- One goods item.  Unlike the header/party dictionaries, the item dictionary
is created by a single literal, so every key is always present. -/
structure GoodsItem where
  IteNumGDS7 : String
  GroMasGDS46 : Option Rat
  GooDesGDS23 : String
  UNDanGooCodGDI1 : Option String
  COMCODGODITM : ComCod
  PACGS2 : List Package
  PRODOCDC2 : List ProDoc
deriving DecidableEq, Repr

/-- `_create_empty_item`: the placeholder produced when no commodity-code
landmark is found. -/
def emptyItem : GoodsItem :=
  { IteNumGDS7 := "1"
  , GroMasGDS46 := none
  , GooDesGDS23 := ""
  , UNDanGooCodGDI1 := none
  , COMCODGODITM := { ComNomCMD1 := "" }
  , PACGS2 := []
  , PRODOCDC2 := [] }

/-- All commodity-code landmarks: `(index, stripped line)` for every stripped
line that is exactly 8 digits, scanning `range(max(dsi, 100), len)`. -/
def commodityPositions (lines : List String) (dsi : Nat) : List (Nat × String) :=
  (pyRange (max dsi 100) lines.length).filterMap (fun i =>
    let line := pyStrip (lineAt lines i)
    if isDigitsLen 8 line then some (i, line) else none)

/-- Python `float` on the strings produced by the mass heuristics: optional
sign, digits with an optional decimal point, optional exponent.  (Python
`float` additionally accepts `inf`/`nan` spellings, which cannot arise from
the digit-bearing lines fed to it and are modelled as a parse failure.) -/
def pyFloat (s : String) : Option Rat :=
  let cs := (pyStrip s).toList
  let (sign, cs) : Int × List Char :=
    match cs with
    | '-' :: rest => (-1, rest)
    | '+' :: rest => (1, rest)
    | _ => (1, cs)
  let intPart := cs.takeWhile isDig
  let cs1 := cs.dropWhile isDig
  let (fracPart, cs2) : List Char × List Char :=
    match cs1 with
    | '.' :: rest => (rest.takeWhile isDig, rest.dropWhile isDig)
    | _ => ([], cs1)
  if intPart = [] ∧ fracPart = [] then none
  else
    let mantNum : Nat :=
      ((intPart ++ fracPart).foldl (fun acc c => acc * 10 + (c.toNat - 48)) 0)
    let mant : Rat := (sign * mantNum : Int) / ((10 : Rat) ^ fracPart.length)
    match cs2 with
    | [] => some mant
    | 'e' :: rest => pyFloatExp mant rest
    | 'E' :: rest => pyFloatExp mant rest
    | _ => none
where
  /-- The exponent tail `e[sign]digits`. -/
  pyFloatExp (mant : Rat) (rest : List Char) : Option Rat :=
    let (esign, rest) : Int × List Char :=
      match rest with
      | '-' :: r => (-1, r)
      | '+' :: r => (1, r)
      | _ => (1, rest)
    let ds := rest.takeWhile isDig
    if ds = [] ∨ rest.dropWhile isDig ≠ [] then none
    else
      let e : Nat := ds.foldl (fun acc c => acc * 10 + (c.toNat - 48)) 0
      some (if esign = 1 then mant * (10 : Rat) ^ e else mant / (10 : Rat) ^ e)

/-- `re.sub(r'-1\s+ком\.', '-1ком.', desc)`: collapse `-1`, whitespace,
`ком.` into `-1ком.`, leftmost non-overlapping.  The fuel starts at the list
length; every step consumes at least one character. -/
def subKomAux : Nat → List Char → List Char
  | 0, l => l
  | _ + 1, [] => []
  | fuel + 1, '-' :: '1' :: c :: rest =>
      if isWS c then
        let tail := (c :: rest).dropWhile isWS
        if startsWithL "ком.".toList tail then
          '-' :: '1' :: 'к' :: 'о' :: 'м' :: '.' :: subKomAux fuel (tail.drop 4)
        else '-' :: subKomAux fuel ('1' :: c :: rest)
      else '-' :: subKomAux fuel ('1' :: c :: rest)
  | fuel + 1, c :: rest => c :: subKomAux fuel rest

/-- `re.sub(r'-1\s+ком\.', '-1ком.', s)`. -/
def subKom (s : String) : String := (subKomAux s.length s.toList).asString

/-- Try `(\w+)\(([^\)]+)\)` at the head of `cs`: a maximal word-character
run, an opening parenthesis, a nonempty closing-parenthesis-free run, a
closing parenthesis.  Returns the two groups, the characters the match
consumed, and the remainder. -/
def tryDocHere (cs : List Char) : Option (String × String × Nat × List Char) :=
  let run := cs.takeWhile isWordChar
  let rest := cs.dropWhile isWordChar
  if run = [] then none
  else
    match rest with
    | '(' :: inner =>
        let grp := inner.takeWhile (fun c => c ≠ ')')
        let rest2 := inner.dropWhile (fun c => c ≠ ')')
        if grp ≠ [] then
          match rest2 with
          | ')' :: tail =>
              some (run.asString, grp.asString, run.length + 1 + grp.length + 1, tail)
          | _ => none
        else none
    | _ => none

/-- `re.finditer(r'(\w+)\(([^\)]+)\)', text)`: scan every start position,
skipping past a match once found (non-overlapping), recording the start
position of each match. -/
def findDocAux : Nat → Nat → List Char → List (String × String × Nat)
  | 0, _, _ => []
  | _ + 1, _, [] => []
  | fuel + 1, pos, c :: rest =>
      match tryDocHere (c :: rest) with
      | some (t, r, len, tail) => (t, r, pos) :: findDocAux fuel (pos + len) tail
      | none => findDocAux fuel (pos + 1) rest

/-- All `CODE(REFERENCE)` matches of the generic document pattern, with
their start offsets, in scan order. -/
def findDocMatches (s : String) : List (String × String × Nat) :=
  findDocAux s.length 0 s.toList

/-- Stable insertion into a position-sorted list (equal keys keep order). -/
def insertByPos (x : String × String × Nat) :
    List (String × String × Nat) → List (String × String × Nat)
  | [] => [x]
  | y :: ys => if y.2.2 ≤ x.2.2 then y :: insertByPos x ys else x :: y :: ys

/-- `temp_docs.sort(key=lambda x: x[2])`: a stable sort by start offset. -/
def sortByPos (l : List (String × String × Nat)) : List (String × String × Nat) :=
  l.foldr insertByPos []

/-- The generic engine's document-type vocabulary. -/
def genericDocVocab : List String :=
  ["5010", "5016", "5009", "5007", "POAN", "5069", "AUN", "5077", "T1"]

/-- The dedup fold over the sorted candidate documents: `5007` entries are
skipped, and a `(type, reference)` pair already seen is not appended again. -/
def dedupDocs : List (String × String × Nat) → List (String × String) → List ProDoc
  | [], _ => []
  | (t, r, _) :: rest, seen =>
      if t = "5007" then dedupDocs rest seen
      else if (t, r) ∈ seen then dedupDocs rest seen
      else { DocTypDC21 := t, DocRefDC23 := r } :: dedupDocs rest ((t, r) :: seen)

/-- The generic engine's reference-document collector (run for item 1 only):
match the document pattern over the space-joined full text, keep known
types, sort by position, and deduplicate by `(type, reference)`. -/
def collectDocsGeneric (lines : List String) : List ProDoc :=
  let docText := String.intercalate " " lines
  let temp := (findDocMatches docText).filter (fun m => decide (m.1 ∈ genericDocVocab))
  dedupDocs (sortByPos temp) []

/-- The packaging-type shorthand codes. -/
def packageTypes : List String := ["PX", "CT", "BX", "PA", "PK", "CS", "CR"]

/-- Description heuristic, first pass: inside
`range(ci, min(ci+10, item_end))` find the first raw line mentioning
`Палета` (either case); the next nonempty line within 3 is the description
when longer than 5 characters, after collapsing `-1 ком.`. -/
def descPaleta (lines : List String) (ci itemEnd : Nat) : String :=
  match (pyRange ci (min (ci + 10) itemEnd)).findSome? (fun i =>
      if strContains (lineAt lines i) "Палета" ||
          strContains (pyLower (lineAt lines i)) "палета" then some i else none) with
  | some i =>
      let d := (fnnFwd lines ((i : Int) + 1) 3).2
      if d ≠ "" ∧ d.length > 5 then subKom d else ""
  | none => ""

/-- Description heuristic, fallback pass: the first stripped line in
`range(ci+1, min(ci+5, item_end))` longer than 10 characters that is neither
purely numeric nor a bare two-letter code. -/
def descFallback (lines : List String) (ci itemEnd : Nat) : String :=
  match (pyRange (ci + 1) (min (ci + 5) itemEnd)).findSome? (fun j =>
      let pd := pyStrip (lineAt lines j)
      if pd.length > 10 ∧ ¬ pyIsdigit pd ∧ ¬ isUpper2 pd then some pd else none) with
  | some pd => pd
  | none => ""

/-- Mass-and-packaging heuristic: at the first packaging-shorthand line in
the item window, the second following nonempty number-like line is the gross
mass, and the preceding nonempty digit line is the package count. -/
def massAndPack (lines : List String) (itemStart itemEnd : Nat) :
    Option Rat × List Package :=
  match (pyRange itemStart itemEnd).findSome? (fun i =>
      if packageTypes.contains (pyStrip (lineAt lines i)) then some i else none) with
  | none => (none, [])
  | some i =>
      let r1 := fnnFwd lines ((i : Int) + 1) 3
      let mass : Option Rat :=
        if r1.2 ≠ "" then
          let r2 := fnnFwd lines (r1.1 + 1) 3
          if r2.2 ≠ "" then pyFloat (replaceCommaDot r2.2) else none
        else none
      let np := (fnnBwd lines ((i : Int) - 1) 1).2
      let packs : List Package :=
        if np ≠ "" ∧ pyIsdigit np then
          [{ KinOfPacGS23 := pyStrip (lineAt lines i)
           , NumOfPacGS24 := np
           , MarNumOfPacGS21 := none }]
        else []
      (mass, packs)

/-- Build one goods item from its landmark (`itemNum` is 1-based). -/
def buildItem (lines : List String) (positions : List (Nat × String))
    (itemNum ci : Nat) (code : String) : GoodsItem :=
  let nextCi := if itemNum < positions.length then (positions.getD itemNum (0, "")).1
                else lines.length
  let itemStart := ci - 30
  let itemEnd := min lines.length nextCi
  let descA := descPaleta lines ci itemEnd
  let desc := if descA = "" then descFallback lines ci itemEnd else descA
  let mp := massAndPack lines itemStart itemEnd
  { IteNumGDS7 := toString itemNum
  , GroMasGDS46 := mp.1
  , GooDesGDS23 := desc
  , UNDanGooCodGDI1 := none
  , COMCODGODITM := { ComNomCMD1 := code }
  , PACGS2 := mp.2
  , PRODOCDC2 := if itemNum = 1 then collectDocsGeneric lines else [] }

/-- `extract_gooitegds`: one item per commodity-code landmark in document
order, numbered from 1, or a single placeholder when there is none. -/
def extractGooitegds (lines : List String) (dsi : Nat) : List GoodsItem :=
  let positions := commodityPositions lines dsi
  if positions = [] then [emptyItem]
  else positions.enum.map (fun p => buildItem lines positions (p.1 + 1) p.2.1 p.2.2)

/-! ### Customs-variant document collector (`extract_ecd_customs.py`) -/

/-- Regex class `[A-Z\d]`. -/
def isAZ9 (c : Char) : Bool := isUpperAZ c || isDig c

/-- Regex class `[A-Z\d/]`. -/
def isAZ9Slash (c : Char) : Bool := isAZ9 c || c = '/'

/-- Assemble the document text after a `44 Дополнителни` marker: up to five
following lines, stopping at the next field marker, skipping label lines. -/
def customsDocTextGo (lines : List String) : List Nat → String → String
  | [], acc => acc
  | j :: rest, acc =>
      let nl := pyStrip (lineAt lines j)
      if strStartsWith nl "46 " || strStartsWith nl "47 " || strStartsWith nl "31 " ||
          strStartsWith nl "Шифр" then acc
      else if strContains nl "информации" || strContains nl "проложени" then
        customsDocTextGo lines rest acc
      else customsDocTextGo lines rest (acc ++ " " ++ nl)

/-- The document-text buffer built from `range(i+1, min(i+6, len))`. -/
def customsDocText (lines : List String) (i : Nat) : String :=
  customsDocTextGo lines (pyRange (i + 1) (min lines.length (i + 6))) ""

/-- `re.sub(r'-\s+', '-', s)`: delete the whitespace run right after every
dash.  Fuel starts at the list length. -/
def dashSubAux : Nat → List Char → List Char
  | 0, l => l
  | _ + 1, [] => []
  | fuel + 1, '-' :: c :: rest =>
      if isWS c then '-' :: dashSubAux fuel ((c :: rest).dropWhile isWS)
      else '-' :: dashSubAux fuel (c :: rest)
  | fuel + 1, c :: rest => c :: dashSubAux fuel rest

/-- `re.sub(r'-\s+', '-', s)`. -/
def dashSub (s : String) : String := (dashSubAux s.length s.toList).asString

/-- Try `([A-Z\d]+)-([A-Z\d]+/\d{4})` at the head: a maximal nonempty
alphanumeric-class run, a dash, a second maximal run, a slash, four digits. -/
def tryCustomsP1 (cs : List Char) : Option (String × String × List Char) :=
  let run1 := cs.takeWhile isAZ9
  let rest := cs.dropWhile isAZ9
  if run1 = [] then none
  else
    match rest with
    | '-' :: rest1 =>
        let run2 := rest1.takeWhile isAZ9
        let rest2 := rest1.dropWhile isAZ9
        if run2 = [] then none
        else
          match rest2 with
          | '/' :: d1 :: d2 :: d3 :: d4 :: tail =>
              if isDig d1 && isDig d2 && isDig d3 && isDig d4 then
                some (run1.asString,
                      run2.asString ++ "/" ++ ([d1, d2, d3, d4].asString), tail)
              else none
          | _ => none
    | _ => none

/-- Try `([A-Z\d]+)-([A-Z\d/]+)` at the head. -/
def tryCustomsP2 (cs : List Char) : Option (String × String × List Char) :=
  let run1 := cs.takeWhile isAZ9
  let rest := cs.dropWhile isAZ9
  if run1 = [] then none
  else
    match rest with
    | '-' :: rest1 =>
        let run2 := rest1.takeWhile isAZ9Slash
        let tail := rest1.dropWhile isAZ9Slash
        if run2 = [] then none
        else some (run1.asString, run2.asString, tail)
    | _ => none

/-- `re.finditer` for the customs document patterns: scan every start
position, skip past a match once found. -/
def finditerDocs (tryHere : List Char → Option (String × String × List Char)) :
    Nat → List Char → List (String × String)
  | 0, _ => []
  | _ + 1, [] => []
  | fuel + 1, c :: rest =>
      match tryHere (c :: rest) with
      | some (a, b, tail) => (a, b) :: finditerDocs tryHere fuel tail
      | none => finditerDocs tryHere fuel rest

/-- The customs engine's document-type vocabulary. -/
def customsDocVocab : List String :=
  ["AUN", "POAN", "5016", "5011", "Y024", "5010", "5069", "T010", "E042", "2037"]

/-- The customs dedup fold: a candidate is appended only when its
`TYPE-REFERENCE` key is new and its type is in the vocabulary. -/
def customsDedup : List (String × String) → List String → List ProDoc
  | [], _ => []
  | (t, r) :: rest, found =>
      let key := t ++ "-" ++ r
      if key ∉ found ∧ t ∈ customsDocVocab then
        { DocTypDC21 := t, DocRefDC23 := r } :: customsDedup rest (key :: found)
      else customsDedup rest found

/-- The customs engine's per-item reference-document collector: find the
`44 Дополнителни` marker inside the item window, build the document-text
buffer, normalise dashes, run both patterns and deduplicate. -/
def collectDocsCustoms (lines : List String) (ci itemEnd : Nat) : List ProDoc :=
  match (pyRange ci (min (ci + 35) itemEnd)).findSome? (fun i =>
      if strContains (pyStrip (lineAt lines i)) "44 Дополнителни" then some i else none) with
  | none => []
  | some i =>
      let txt := customsDocText lines i
      if txt = "" then []
      else
        let cs := (dashSub txt).toList
        customsDedup
          (finditerDocs tryCustomsP1 cs.length cs ++
            finditerDocs tryCustomsP2 cs.length cs) []

/-! ### Record assembler (`extract_all` and the constructor's fixed shape) -/

structure SeaId where
  SeaIdeSID1 : String
deriving DecidableEq, Repr

/-- The `SEAINFSLI` section, fixed at construction time. -/
structure SeaInf where
  SeaNumSLI2 : Option String
  SEAIDSID : List SeaId
deriving DecidableEq, Repr

/-- The seal-info shape installed by `__init__`. -/
def initSeaInf : SeaInf :=
  { SeaNumSLI2 := none, SEAIDSID := [{ SeaIdeSID1 := "" }] }

/-- The assembled output record. -/
structure Declaration where
  HEAHEA : Heahea
  TRAEXPEX1 : Traexpex1
  TRACONCE1 : Traconce1
  SEAINFSLI : SeaInf
  GOOITEGDS : List GoodsItem
deriving DecidableEq, Repr

/-- `extract_all` on an acquired line sequence: locate the data section, then
run the four extractors in order; every extractor receives the same offset
and none can abort the run. -/
def extractAll (lines : List String) : Declaration :=
  let dsi := findDataSection lines
  { HEAHEA := extractHeahea lines dsi
  , TRAEXPEX1 := extractTraexpex1 lines dsi
  , TRACONCE1 := extractTraconce1 lines dsi
  , SEAINFSLI := initSeaInf
  , GOOITEGDS := extractGooitegds lines dsi }

/-! ### Comparator (`compare_with_expected`, identical in
`extract_ecd_generic.py` and `extract_ecd_final.py`)

The comparator consumes parsed JSON-shaped records, modelled by `JVal`.
`compareJ` mirrors `compare_dict`: mapping nodes are driven by the
reference's keys, sequence nodes are zipped element-wise after a length
check, leaves are compared for equality; the Python paths that would raise
`TypeError` (membership or indexing on a non-container) are modelled as
`Except.error`.  Equality of leaves is Python `==` restricted to same-typed
values (`jeq`); cross-type numeric equality cannot arise on the diagonal. -/


inductive JVal where
  | null
  | s (v : String)
  | i (v : Int)
  | q (v : Rat)
  | b (v : Bool)
  | obj (fields : List (String × JVal))
  | arr (elems : List JVal)

mutual
def jeq : JVal → JVal → Bool
  | .null, .null => true
  | .s a, .s c => a == c
  | .i a, .i c => a == c
  | .q a, .q c => a == c
  | .b a, .b c => a == c
  | .obj a, .obj c => jeqF a c
  | .arr a, .arr c => jeqA a c
  | _, _ => false
def jeqF : List (String × JVal) → List (String × JVal) → Bool
  | [], [] => true
  | (k, v) :: r, (k2, v2) :: r2 => k == k2 && jeq v v2 && jeqF r r2
  | _, _ => false
def jeqA : List JVal → List JVal → Bool
  | [], [] => true
  | v :: r, v2 :: r2 => jeq v v2 && jeqA r r2
  | _, _ => false
end

mutual
def leafCount : JVal → Nat
  | .obj fs => leafCountF fs
  | .arr es => leafCountA es
  | _ => 1
def leafCountF : List (String × JVal) → Nat
  | [] => 0
  | (_, v) :: rest => leafCount v + leafCountF rest
def leafCountA : List JVal → Nat
  | [] => 0
  | v :: rest => leafCount v + leafCountA rest
end

def pyLookup (fs : List (String × JVal)) (k : String) : Option JVal :=
  match fs with
  | [] => none
  | (k2, v) :: rest => if k2 = k then some v else pyLookup rest k

def jshow : JVal → String
  | .null => "None"
  | .s v => v
  | .i v => toString v
  | .q v => toString v
  | .b v => if v then "True" else "False"
  | .obj _ => "<dict>"
  | .arr _ => "<list>"

def pyContains (actual : JVal) (k : String) : Except Unit Bool :=
  match actual with
  | .obj fs => .ok (fs.any (fun kv => kv.1 == k))
  | .arr es => .ok (es.any (fun e => jeq e (.s k)))
  | .s v => .ok (containsL v.toList k.toList)
  | _ => .error ()

def pyGetItem (actual : JVal) (k : String) : Except Unit JVal :=
  match actual with
  | .obj fs => match pyLookup fs k with
      | some v => .ok v
      | none => .error ()
  | _ => .error ()

mutual
def compareJ (path : String) (actual expected : JVal) :
    Except Unit (List String × List String) :=
  match expected with
  | .obj fields => cmpFields path actual fields
  | .arr elems =>
      match actual with
      | .arr aelems =>
          let lenDiffs : List String :=
            if aelems.length = elems.length then []
            else ["⚠️  " ++ path ++ ": Различна должина на листа (извлечено: " ++
              toString aelems.length ++ ", очекувано: " ++ toString elems.length ++ ")"]
          match cmpElems path 0 aelems elems with
          | .error e => .error e
          | .ok (ds, ms) => .ok (lenDiffs ++ ds, ms)
      | _ => .error ()
  | leaf =>
      if jeq actual leaf then .ok ([], ["✅ " ++ path])
      else .ok (["❌ " ++ path ++ ": извлечено='" ++ jshow actual ++
        "' != очекувано='" ++ jshow leaf ++ "'"], [])
def cmpFields (path : String) (actual : JVal) :
    List (String × JVal) → Except Unit (List String × List String)
  | [] => .ok ([], [])
  | (k, ev) :: rest =>
      let newPath := if path = "" then k else path ++ "." ++ k
      match pyContains actual k with
      | .error e => .error e
      | .ok false =>
          match cmpFields path actual rest with
          | .error e => .error e
          | .ok (ds, ms) => .ok (("❌ Недостасува: " ++ newPath) :: ds, ms)
      | .ok true =>
          match pyGetItem actual k with
          | .error e => .error e
          | .ok av =>
              match compareJ newPath av ev with
              | .error e => .error e
              | .ok (ds1, ms1) =>
                  match cmpFields path actual rest with
                  | .error e => .error e
                  | .ok (ds2, ms2) => .ok (ds1 ++ ds2, ms1 ++ ms2)
def cmpElems (path : String) (idx : Nat) :
    List JVal → List JVal → Except Unit (List String × List String)
  | _, [] => .ok ([], [])
  | [], _ => .ok ([], [])
  | a :: as_, e :: es =>
      match compareJ (path ++ "[" ++ toString idx ++ "]") a e with
      | .error err => .error err
      | .ok (ds1, ms1) =>
          match cmpElems path (idx + 1) as_ es with
          | .error err => .error err
          | .ok (ds2, ms2) => .ok (ds1 ++ ds2, ms1 ++ ms2)
end

def keysNodup : List (String × JVal) → Bool
  | [] => true
  | (k, _) :: rest => !(rest.any (fun kv => kv.1 == k)) && keysNodup rest

mutual
def wfKeys : JVal → Bool
  | .obj fs => keysNodup fs && wfKeysF fs
  | .arr es => wfKeysA es
  | _ => true
def wfKeysF : List (String × JVal) → Bool
  | [] => true
  | (_, v) :: rest => wfKeys v && wfKeysF rest
def wfKeysA : List JVal → Bool
  | [] => true
  | v :: rest => wfKeys v && wfKeysA rest
end

/-! ### Concrete inputs used by the claim theorems below -/

/-- A 101-line document with no section landmark (so the locator falls back
to line 80) and 8-digit commodity lines at indices 85 and 100: index 85 lies
at-or-after the section offset but before the segmenter's hard floor of
line 100. -/
def c1Lines : List String :=
  List.replicate 85 "." ++ ["11111111"] ++ List.replicate 14 "." ++ ["22222222"]

/-- A document whose only commodity landmark sits at index 100, followed by a
`CODE(REFERENCE)` document citation picked up by the generic collector. -/
def c5Lines : List String :=
  List.replicate 100 "." ++ ["12345678", "5016(ABC)"]

/-- A receiver block in generic layout: name, address, country code, the
4–7 digit reference anchor, and a TIN-shaped line right after the anchor. -/
def c10Lines : List String :=
  [".", ".", "RECEIVER NAME X", "RUE DE LA PAIX 75001 PARIS", "FR", "12345",
   "DE1234567"]

/-- A small declaration-shaped record for exercising the comparator. -/
def demoDecl : JVal :=
  JVal.obj
    [("HEAHEA", JVal.obj [("TotGroMasHEA307", JVal.i 1200),
        ("DecPlaHEA394", JVal.null)]),
     ("TRAEXPEX1", JVal.obj [("TINEX159", JVal.s "MK4030991260181")]),
     ("GOOITEGDS", JVal.arr
        [JVal.obj [("IteNumGDS7", JVal.s "1"), ("GroMasGDS46", JVal.q 1200)],
         JVal.obj [("IteNumGDS7", JVal.s "2"), ("GroMasGDS46", JVal.null)]])]

/-!
## Theorems

Helper lemmas first, then one theorem per claim (with witnesses and
counterexamples where required).
-/

theorem toSlot_ne_val_none {α : Type} (o : Option α) : toSlot o ≠ Slot.val none := by
  cases o <;> simp [toSlot]
theorem JVal.indNested (P : JVal → Prop)
    (hnull : P .null) (hs : ∀ v, P (.s v)) (hi : ∀ v, P (.i v))
    (hq : ∀ v, P (.q v)) (hb : ∀ v, P (.b v))
    (hobj : ∀ fs, (∀ kv ∈ fs, P kv.2) → P (.obj fs))
    (harr : ∀ es, (∀ e ∈ es, P e) → P (.arr es)) : ∀ v, P v
  | .null => hnull
  | .s v => hs v
  | .i v => hi v
  | .q v => hq v
  | .b v => hb v
  | .obj fs => hobj fs (fun kv hkv =>
      JVal.indNested P hnull hs hi hq hb hobj harr kv.2)
  | .arr es => harr es (fun e he =>
      JVal.indNested P hnull hs hi hq hb hobj harr e)
termination_by v => sizeOf v
decreasing_by
  · have h1 := List.sizeOf_lt_of_mem hkv
    obtain ⟨k, v⟩ := kv
    simp only [Prod.mk.sizeOf_spec] at h1 ⊢
    simp only [JVal.obj.sizeOf_spec]
    omega
  · have h1 := List.sizeOf_lt_of_mem he
    simp only [JVal.arr.sizeOf_spec]
    omega

theorem wfKeysF_mem : ∀ (fs : List (String × JVal)), wfKeysF fs = true →
    ∀ kv : String × JVal, kv ∈ fs → wfKeys kv.2 = true := by
  intro fs
  induction fs with
  | nil => intro _ kv hm; cases hm
  | cons hd tl ih =>
      obtain ⟨k, v⟩ := hd
      intro h kv hm
      simp only [wfKeysF, Bool.and_eq_true] at h
      rcases List.mem_cons.mp hm with hm | hm
      · rw [hm]; exact h.1
      · exact ih h.2 kv hm

theorem wfKeysA_mem : ∀ (es : List JVal), wfKeysA es = true →
    ∀ e : JVal, e ∈ es → wfKeys e = true := by
  intro es
  induction es with
  | nil => intro _ e hm; cases hm
  | cons hd tl ih =>
      intro h e hm
      simp only [wfKeysA, Bool.and_eq_true] at h
      rcases List.mem_cons.mp hm with hm | hm
      · exact hm ▸ h.1
      · exact ih h.2 e hm

theorem pyLookup_nodup : ∀ (fs : List (String × JVal)), keysNodup fs = true →
    ∀ (k : String) (v : JVal), (k, v) ∈ fs → pyLookup fs k = some v := by
  intro fs
  induction fs with
  | nil => intro _ k v hm; cases hm
  | cons hd tl ih =>
      obtain ⟨k2, v2⟩ := hd
      intro hnd k v hm
      simp only [keysNodup, Bool.and_eq_true, Bool.not_eq_true'] at hnd
      rcases List.mem_cons.mp hm with hm | hm
      · rw [Prod.mk.injEq] at hm
        obtain ⟨hk, hv⟩ := hm
        simp [pyLookup, hk, hv]
      · by_cases hk : k2 = k
        · exfalso
          have hany : tl.any (fun kv => kv.1 == k2) = true := by
            refine List.any_eq_true.mpr ⟨(k, v), hm, ?_⟩
            simp [hk]
          rw [hany] at hnd
          cases hnd.1
        · simp only [pyLookup, hk, if_false]
          exact ih hnd.2 k v hm

theorem jeq_refl : ∀ v : JVal, jeq v v = true := by
  intro v
  induction v using JVal.indNested with
  | hnull => rfl
  | hs v => simp [jeq]
  | hi v => simp [jeq]
  | hq v => simp [jeq]
  | hb v => simp [jeq]
  | hobj fs ih =>
      simp only [jeq]
      induction fs with
      | nil => rfl
      | cons hd tl ihtl =>
          obtain ⟨k, v⟩ := hd
          simp only [jeqF, Bool.and_eq_true]
          refine ⟨⟨by simp, ih (k, v) (by simp)⟩, ?_⟩
          exact ihtl (fun kv hkv => ih kv (List.mem_cons_of_mem _ hkv))
  | harr es ih =>
      simp only [jeq]
      induction es with
      | nil => rfl
      | cons hd tl ihtl =>
          simp only [jeqA, Bool.and_eq_true]
          exact ⟨ih hd (by simp), ihtl (fun e he => ih e (List.mem_cons_of_mem _ he))⟩

/-- C4: running the Comparator with the same well-formed (duplicate-free
keys, as Python dicts guarantee) record as both the actual and the reference
side yields no differences and one match per leaf field: the match count
equals the number of non-mapping, non-sequence leaves. -/
theorem c4_comparator_self_diag : ∀ v : JVal, wfKeys v = true →
    ∀ path : String, ∃ ms : List String,
      compareJ path v v = .ok ([], ms) ∧ ms.length = leafCount v := by
  intro v
  induction v using JVal.indNested with
  | hnull => intro _ path; exact ⟨["✅ " ++ path], by simp [compareJ, jeq, leafCount]⟩
  | hs v => intro _ path; exact ⟨["✅ " ++ path], by simp [compareJ, jeq, leafCount]⟩
  | hi v => intro _ path; exact ⟨["✅ " ++ path], by simp [compareJ, jeq, leafCount]⟩
  | hq v => intro _ path; exact ⟨["✅ " ++ path], by simp [compareJ, jeq, leafCount]⟩
  | hb v => intro _ path; exact ⟨["✅ " ++ path], by simp [compareJ, jeq, leafCount]⟩
  | hobj fs ih =>
      intro hwf path
      simp only [wfKeys, Bool.and_eq_true] at hwf
      have inner : ∀ l : List (String × JVal), (∀ kv ∈ l, kv ∈ fs) →
          ∃ ms, cmpFields path (.obj fs) l = .ok ([], ms) ∧
            ms.length = leafCountF l := by
        intro l
        induction l with
        | nil => intro _; exact ⟨[], by simp [cmpFields, leafCountF]⟩
        | cons hd tl ihtl =>
            obtain ⟨k, ev⟩ := hd
            intro hsub
            have hmem : (k, ev) ∈ fs := hsub (k, ev) (by simp)
            have hany : fs.any (fun kv => kv.1 == k) = true :=
              List.any_eq_true.mpr ⟨(k, ev), hmem, by simp⟩
            have hlook : pyLookup fs k = some ev := pyLookup_nodup fs hwf.1 k ev hmem
            have hwfev : wfKeys ev = true := wfKeysF_mem fs hwf.2 (k, ev) hmem
            obtain ⟨ms1, hc1, hl1⟩ :=
              ih (k, ev) hmem hwfev (if path = "" then k else path ++ "." ++ k)
            obtain ⟨ms2, hc2, hl2⟩ :=
              ihtl (fun kv hkv => hsub kv (List.mem_cons_of_mem _ hkv))
            refine ⟨ms1 ++ ms2, ?_, by simp [leafCountF, hl1, hl2]⟩
            simp only [cmpFields, pyContains, hany, pyGetItem, hlook, hc1, hc2, List.nil_append]
      obtain ⟨ms, hc, hl⟩ := inner fs (fun kv hkv => hkv)
      exact ⟨ms, by simp [compareJ, hc], by simp [leafCount, hl]⟩
  | harr es ih =>
      intro hwf path
      simp only [wfKeys] at hwf
      have inner : ∀ l : List JVal, (∀ e ∈ l, e ∈ es) → ∀ idx : Nat,
          ∃ ms, cmpElems path idx l l = .ok ([], ms) ∧
            ms.length = leafCountA l := by
        intro l
        induction l with
        | nil => intro _ idx; exact ⟨[], by simp [cmpElems, leafCountA]⟩
        | cons hd tl ihtl =>
            intro hsub idx
            have hmem : hd ∈ es := hsub hd (by simp)
            have hwfhd : wfKeys hd = true := wfKeysA_mem es hwf hd hmem
            obtain ⟨ms1, hc1, hl1⟩ :=
              ih hd hmem hwfhd (path ++ "[" ++ toString idx ++ "]")
            obtain ⟨ms2, hc2, hl2⟩ :=
              ihtl (fun e he => hsub e (List.mem_cons_of_mem _ he)) (idx + 1)
            refine ⟨ms1 ++ ms2, ?_, by simp [leafCountA, hl1, hl2]⟩
            simp only [cmpElems, hc1, hc2, List.nil_append]
      obtain ⟨ms, hc, hl⟩ := inner es (fun e he => he) 0
      refine ⟨ms, ?_, by simp [leafCount, hl]⟩
      simp [compareJ, hc]

theorem firstIdxAux_eq_none (p : String → Bool) :
    ∀ (l : List String) (i : Nat), (∀ s ∈ l, p s = false) → firstIdxAux p i l = none := by
  intro l
  induction l with
  | nil => intro i _; rfl
  | cons hd tl ih =>
      intro i h
      have hhd : p hd = false := h hd (by simp)
      simp only [firstIdxAux, hhd, Bool.false_eq_true, if_false]
      exact ih (i + 1) (fun s hs => h s (List.mem_cons_of_mem _ hs))

theorem firstIdxWhere_eq_none (p : String → Bool) (lines : List String)
    (h : ∀ s ∈ lines, p s = false) : firstIdxWhere p lines = none :=
  firstIdxAux_eq_none p lines 0 h

theorem firstIdxAux_spec (p : String → Bool) :
    ∀ (l : List String) (i k : Nat), firstIdxAux p i l = some k →
      i ≤ k ∧ k - i < l.length ∧ p (l.getD (k - i) "") = true ∧
        ∀ j, i ≤ j → j < k → p (l.getD (j - i) "") = false := by
  intro l
  induction l with
  | nil => intro i k h; cases h
  | cons hd tl ih =>
      intro i k h
      by_cases hp : p hd = true
      · simp only [firstIdxAux, hp, if_true, Option.some.injEq] at h
        subst h
        exact ⟨le_refl _, by simp, by simpa using hp, fun j hj1 hj2 => absurd hj1 (by omega)⟩
      · simp only [firstIdxAux, hp, if_false] at h
        obtain ⟨h1, h2, h3, h4⟩ := ih (i + 1) k h
        refine ⟨by omega, by simp; omega, ?_, ?_⟩
        · have : k - i = (k - (i + 1)) + 1 := by omega
          rw [this]
          simpa using h3
        · intro j hj1 hj2
          by_cases hji : j = i
          · subst hji
            simpa [Nat.sub_self] using eq_false_of_ne_true hp
          · have : j - i = (j - (i + 1)) + 1 := by omega
            rw [this]
            simpa using h4 j (by omega) hj2

theorem firstIdxWhere_spec (p : String → Bool) (lines : List String) (k : Nat)
    (h : firstIdxWhere p lines = some k) :
    k < lines.length ∧ p (lineAt lines k) = true ∧
      ∀ j < k, p (lineAt lines j) = false := by
  obtain ⟨_, h2, h3, h4⟩ := firstIdxAux_spec p lines 0 k h
  exact ⟨by simpa using h2, by simpa [lineAt] using h3,
    fun j hj => by simpa [lineAt] using h4 j (Nat.zero_le _) hj⟩

theorem totGroMasAux_eq_firstIdx (lines : List String) :
    ∀ (l : List String) (i : Nat),
      totGroMasAux lines i l =
        match firstIdxAux (fun s => decide (pyStrip s = "KGM")) i l with
        | none => none
        | some k =>
            if pyIsdigit (getLineSafe lines ((k : Int) - 1)) then
              some (digitsToNat (getLineSafe lines ((k : Int) - 1)))
            else none := by
  intro l
  induction l with
  | nil => intro i; rfl
  | cons hd tl ih =>
      intro i
      by_cases hp : pyStrip hd = "KGM"
      · simp [totGroMasAux, firstIdxAux, hp]
      · have hd1 : ¬ (decide (pyStrip hd = "KGM") = true) := by simpa using hp
        simp only [totGroMasAux, if_neg hp]
        simp only [firstIdxAux, if_neg hd1]
        exact ih (i + 1)

theorem scoreDecision_spec (c s : Nat) :
    (scoreDecision c s = ECDFormat.customs ↔ s < c ∧ 2 ≤ c) ∧
    (scoreDecision c s = ECDFormat.standard ↔ c < s ∧ 2 ≤ s) ∧
    (scoreDecision c s = ECDFormat.unknown ↔
      ¬(s < c ∧ 2 ≤ c) ∧ ¬(c < s ∧ 2 ≤ s)) := by
  unfold scoreDecision
  split_ifs with h1 h2 <;> refine ⟨?_, ?_, ?_⟩ <;>
    simp_all <;> omega

theorem extractGooitegds_length (lines : List String) (dsi : Nat) :
    (extractGooitegds lines dsi).length =
      max (commodityPositions lines dsi).length 1 := by
  unfold extractGooitegds
  by_cases h : commodityPositions lines dsi = []
  · simp [h]
  · have hpos : 0 < (commodityPositions lines dsi).length := List.length_pos.mpr h
    simp only [h, if_false, List.length_map, List.enum_length]
    omega

theorem extractGooitegds_ne_nil (lines : List String) (dsi : Nat) :
    extractGooitegds lines dsi ≠ [] := by
  intro h
  have := congrArg List.length h
  rw [extractGooitegds_length] at this
  simp at this

theorem extractGooitegds_seqnums (lines : List String) (dsi : Nat) :
    (extractGooitegds lines dsi).map (fun it => it.IteNumGDS7) =
      (List.range (max (commodityPositions lines dsi).length 1)).map
        (fun k => toString (k + 1)) := by
  unfold extractGooitegds
  by_cases h : commodityPositions lines dsi = []
  · simp only [h, if_true, List.length_nil, Nat.max_eq_right (by omega : 0 ≤ 1)]
    rfl
  · have hpos : 0 < (commodityPositions lines dsi).length := List.length_pos.mpr h
    have hmax : max (commodityPositions lines dsi).length 1 =
        (commodityPositions lines dsi).length := by omega
    simp only [h, if_false, hmax, List.map_map]
    have hfst : ((commodityPositions lines dsi).enum.map Prod.fst) =
        List.range (commodityPositions lines dsi).length := List.enum_map_fst _
    calc ((commodityPositions lines dsi).enum).map
          ((fun it => it.IteNumGDS7) ∘ fun p =>
            buildItem lines (commodityPositions lines dsi) (p.1 + 1) p.2.1 p.2.2)
        = ((commodityPositions lines dsi).enum).map
            ((fun k => toString (k + 1)) ∘ Prod.fst) := by
          apply List.map_congr_left
          intro p _
          rfl
      _ = (((commodityPositions lines dsi).enum).map Prod.fst).map
            (fun k => toString (k + 1)) := by rw [List.map_map]
      _ = (List.range (commodityPositions lines dsi).length).map
            (fun k => toString (k + 1)) := by rw [hfst]

theorem length_filterMap_if {α β : Type} (q : α → Bool) (g : α → β) :
    ∀ l : List α,
      (l.filterMap (fun a => if q a then some (g a) else none)).length =
        (l.filter q).length := by
  intro l
  induction l with
  | nil => rfl
  | cons hd tl ih =>
      by_cases h : q hd = true
      · simp [List.filterMap_cons, List.filter_cons, h, ih]
      · simp only [Bool.not_eq_true] at h
        simp [List.filterMap_cons, List.filter_cons, h, ih]

theorem filter_range_shift (q : Nat → Bool) (s n : Nat) :
    ((List.range' s (n - s)).filter q).length =
      ((List.range n).filter (fun i => decide (s ≤ i) && q i)).length := by
  by_cases hsn : s ≤ n
  · have hsplit : List.range' 0 s ++ List.range' s (n - s) = List.range n := by
      rw [List.range_eq_range']
      have := List.range'_append 0 s (n - s) 1
      simp only [Nat.one_mul, Nat.zero_add] at this
      rw [this]
      congr 1
      omega
    rw [← hsplit, List.filter_append, List.length_append]
    have h1 : (List.range' 0 s).filter (fun i => decide (s ≤ i) && q i) = [] := by
      apply List.filter_eq_nil.mpr
      intro a ha
      have : a < s := by
        have := List.mem_range'_1.mp ha
        omega
      simp [Nat.not_le.mpr this]
    have h2 : (List.range' s (n - s)).filter (fun i => decide (s ≤ i) && q i) =
        (List.range' s (n - s)).filter q := by
      apply List.filter_congr
      intro a ha
      have : s ≤ a := by
        have := List.mem_range'_1.mp ha
        omega
      simp [this]
    rw [h1, h2]
    simp
  · have h0 : n - s = 0 := by omega
    rw [h0]
    have h1 : (List.range n).filter (fun i => decide (s ≤ i) && q i) = [] := by
      apply List.filter_eq_nil.mpr
      intro a ha
      have : a < n := List.mem_range.mp ha
      have : ¬ s ≤ a := by omega
      simp [this]
    rw [h1]
    rfl

theorem commodityPositions_count (lines : List String) (dsi : Nat) :
    (commodityPositions lines dsi).length =
      ((List.range lines.length).filter (fun i =>
          decide (max dsi 100 ≤ i) && isDigitsLen 8 (pyStrip (lineAt lines i)))).length := by
  unfold commodityPositions pyRange
  rw [length_filterMap_if (fun i => isDigitsLen 8 (pyStrip (lineAt lines i)))
        (fun i => (i, pyStrip (lineAt lines i)))]
  exact filter_range_shift _ (max dsi 100) lines.length

theorem mem_insertByPos (x a : String × String × Nat) :
    ∀ l : List (String × String × Nat), a ∈ insertByPos x l ↔ a = x ∨ a ∈ l := by
  intro l
  induction l with
  | nil => simp [insertByPos]
  | cons hd tl ih =>
      by_cases h : hd.2.2 ≤ x.2.2
      · simp only [insertByPos, if_pos h, List.mem_cons, ih]
        tauto
      · simp only [insertByPos, if_neg h, List.mem_cons]

theorem mem_sortByPos (a : String × String × Nat) :
    ∀ l : List (String × String × Nat), a ∈ sortByPos l ↔ a ∈ l := by
  have key : ∀ (l acc : List (String × String × Nat)),
      a ∈ l.foldr insertByPos acc ↔ a ∈ l ∨ a ∈ acc := by
    intro l
    induction l with
    | nil => simp
    | cons hd tl ih =>
        intro acc
        simp only [List.foldr_cons, mem_insertByPos, ih, List.mem_cons]
        tauto
  intro l
  unfold sortByPos
  rw [key]
  simp

/-- The pair-distinctness relation on recorded documents. -/
def docPairNe (a b : ProDoc) : Prop :=
  (a.DocTypDC21, a.DocRefDC23) ≠ (b.DocTypDC21, b.DocRefDC23)

theorem dedupDocs_sound :
    ∀ (l : List (String × String × Nat)) (seen : List (String × String)),
      (dedupDocs l seen).Pairwise docPairNe ∧
      ∀ d ∈ dedupDocs l seen,
        (d.DocTypDC21, d.DocRefDC23) ∉ seen ∧
        ∃ pos, (d.DocTypDC21, d.DocRefDC23, pos) ∈ l := by
  intro l
  induction l with
  | nil => intro seen; simp [dedupDocs]
  | cons hd tl ih =>
      obtain ⟨t, r, pos⟩ := hd
      intro seen
      by_cases h1 : t = "5007"
      · simp only [dedupDocs, if_pos h1]
        obtain ⟨hp, hm⟩ := ih seen
        refine ⟨hp, fun d hd => ?_⟩
        obtain ⟨hs, p2, hp2⟩ := hm d hd
        exact ⟨hs, p2, List.mem_cons_of_mem _ hp2⟩
      · by_cases h2 : (t, r) ∈ seen
        · simp only [dedupDocs, if_neg h1, if_pos h2]
          obtain ⟨hp, hm⟩ := ih seen
          refine ⟨hp, fun d hd => ?_⟩
          obtain ⟨hs, p2, hp2⟩ := hm d hd
          exact ⟨hs, p2, List.mem_cons_of_mem _ hp2⟩
        · simp only [dedupDocs, if_neg h1, if_neg h2]
          obtain ⟨hp, hm⟩ := ih ((t, r) :: seen)
          constructor
          · refine List.Pairwise.cons ?_ hp
            intro d hd
            obtain ⟨hs, _⟩ := hm d hd
            intro heq
            apply hs
            rw [← heq]
            exact List.mem_cons_self _ _
          · intro d hd
            rcases List.mem_cons.mp hd with hd | hd
            · subst hd
              exact ⟨h2, pos, by simp⟩
            · obtain ⟨hs, p2, hp2⟩ := hm d hd
              exact ⟨fun hc => hs (List.mem_cons_of_mem _ hc),
                p2, List.mem_cons_of_mem _ hp2⟩

theorem collectDocsGeneric_sound (lines : List String) :
    (collectDocsGeneric lines).Pairwise docPairNe ∧
    ∀ d ∈ collectDocsGeneric lines, d.DocTypDC21 ∈ genericDocVocab := by
  unfold collectDocsGeneric
  obtain ⟨hp, hm⟩ := dedupDocs_sound
    (sortByPos ((findDocMatches (String.intercalate " " lines)).filter
      (fun m => decide (m.1 ∈ genericDocVocab)))) []
  refine ⟨hp, fun d hd => ?_⟩
  obtain ⟨_, pos, hmem⟩ := hm d hd
  rw [mem_sortByPos] at hmem
  have := List.of_mem_filter hmem
  simpa using this

theorem customsDedup_sound :
    ∀ (l : List (String × String)) (found : List String),
      (customsDedup l found).Pairwise docPairNe ∧
      ∀ d ∈ customsDedup l found, d.DocTypDC21 ∈ customsDocVocab := by
  have key : ∀ (l : List (String × String)) (found : List String),
      (customsDedup l found).Pairwise (fun a b =>
        a.DocTypDC21 ++ "-" ++ a.DocRefDC23 ≠ b.DocTypDC21 ++ "-" ++ b.DocRefDC23) ∧
      ∀ d ∈ customsDedup l found,
        (d.DocTypDC21 ++ "-" ++ d.DocRefDC23) ∉ found ∧
        d.DocTypDC21 ∈ customsDocVocab := by
    intro l
    induction l with
    | nil => intro found; simp [customsDedup]
    | cons hd tl ih =>
        obtain ⟨t, r⟩ := hd
        intro found
        by_cases h : (t ++ "-" ++ r) ∉ found ∧ t ∈ customsDocVocab
        · simp only [customsDedup, if_pos h]
          obtain ⟨hp, hm⟩ := ih ((t ++ "-" ++ r) :: found)
          constructor
          · refine List.Pairwise.cons ?_ hp
            intro d hd heq
            obtain ⟨hs, _⟩ := hm d hd
            apply hs
            rw [← heq]
            exact List.mem_cons_self _ _
          · intro d hd
            rcases List.mem_cons.mp hd with hd | hd
            · subst hd
              exact ⟨h.1, h.2⟩
            · obtain ⟨hs, hv⟩ := hm d hd
              exact ⟨fun hc => hs (List.mem_cons_of_mem _ hc), hv⟩
        · simp only [customsDedup, if_neg h]
          exact ih found
  intro l found
  obtain ⟨hp, hm⟩ := key l found
  refine ⟨hp.imp ?_, fun d hd => (hm d hd).2⟩
  intro a b hne heq
  apply hne
  have h1 : a.DocTypDC21 = b.DocTypDC21 := congrArg Prod.fst heq
  have h2 : a.DocRefDC23 = b.DocRefDC23 := congrArg Prod.snd heq
  rw [h1, h2]

/-- C3: the Format Classifier returns the customs variant exactly when the
customs indicator score strictly exceeds the standard score and is at least
2, the standard variant exactly in the symmetric case, and unknown in every
other case — ties and sub-threshold scores included. -/
theorem c3_classifier_decision (text : String) :
    (detectFormat text = ECDFormat.customs ↔
      standardScore text < customsScore text ∧ 2 ≤ customsScore text) ∧
    (detectFormat text = ECDFormat.standard ↔
      customsScore text < standardScore text ∧ 2 ≤ standardScore text) ∧
    (detectFormat text = ECDFormat.unknown ↔
      ¬(standardScore text < customsScore text ∧ 2 ≤ customsScore text) ∧
      ¬(customsScore text < standardScore text ∧ 2 ≤ standardScore text)) := by
  have hd : detectFormat text =
      scoreDecision (customsScore text) (standardScore text) := by
    unfold detectFormat
    by_cases he : text = ""
    · subst he
      rw [if_pos rfl]
      rfl
    · rw [if_neg he]
  rw [hd]
  exact scoreDecision_spec _ _

/-- C7: every indicator weight is 1 or 2; adding one more matched indicator
to a variant adds its weight to that variant's score — never decreasing
it — and never flips the decision toward the other variant. -/
theorem c7_classifier_monotone (t : String) (w : Nat) (hw : w = 1 ∨ w = 2) :
    customsScore t ≤ customsScore t + w ∧
    standardScore t ≤ standardScore t + w ∧
    (scoreDecision (customsScore t + w) (standardScore t) = ECDFormat.standard →
      scoreDecision (customsScore t) (standardScore t) = ECDFormat.standard) ∧
    (scoreDecision (customsScore t) (standardScore t + w) = ECDFormat.customs →
      scoreDecision (customsScore t) (standardScore t) = ECDFormat.customs) := by
  refine ⟨Nat.le_add_right _ _, Nat.le_add_right _ _, ?_, ?_⟩
  · intro h
    have h1 := (scoreDecision_spec (customsScore t + w) (standardScore t)).2.1.mp h
    exact (scoreDecision_spec _ _).2.1.mpr ⟨by omega, h1.2⟩
  · intro h
    have h1 := (scoreDecision_spec (customsScore t) (standardScore t + w)).1.mp h
    exact (scoreDecision_spec _ _).1.mpr ⟨by omega, h1.2⟩

/-- Witness for C7 at the empty text sample and weight 1. -/
theorem c7_classifier_monotone_witness :
    customsScore "" ≤ customsScore "" + 1 ∧
    standardScore "" ≤ standardScore "" + 1 ∧
    (scoreDecision (customsScore "" + 1) (standardScore "") = ECDFormat.standard →
      scoreDecision (customsScore "") (standardScore "") = ECDFormat.standard) ∧
    (scoreDecision (customsScore "") (standardScore "" + 1) = ECDFormat.customs →
      scoreDecision (customsScore "") (standardScore "") = ECDFormat.customs) :=
  c7_classifier_monotone "" 1 (Or.inl rfl)

/-- C6: the total-gross-mass field is governed by the first line whose strip
equals the unit literal `KGM`: when the immediately preceding safe line is
purely numeric the field is that number, and otherwise the field stays
unresolved (no later occurrence is considered); in particular a line
`"1200"` immediately followed by `"KGM"` yields 1200. -/
theorem c6_total_gross_mass (lines : List String) :
    (extractTotGroMas lines =
      match firstIdxWhere (fun l => decide (pyStrip l = "KGM")) lines with
      | none => none
      | some k =>
          if pyIsdigit (getLineSafe lines ((k : Int) - 1)) then
            some (digitsToNat (getLineSafe lines ((k : Int) - 1)))
          else none) ∧
    (∀ k, firstIdxWhere (fun l => decide (pyStrip l = "KGM")) lines = some k →
      pyStrip (lineAt lines k) = "KGM" ∧ ∀ j < k, pyStrip (lineAt lines j) ≠ "KGM") ∧
    extractTotGroMas ["1200", "KGM"] = some 1200 := by
  refine ⟨totGroMasAux_eq_firstIdx lines lines 0, ?_, rfl⟩
  intro k hk
  obtain ⟨_, h2, h3⟩ := firstIdxWhere_spec _ lines k hk
  exact ⟨by simpa using h2, fun j hj => by simpa using h3 j hj⟩

/-- Witness for C6: the declarative first-occurrence characterisation
discharged at a block whose second `KGM` occurrence would give a different
answer. -/
theorem c6_total_gross_mass_witness :
    extractTotGroMas ["x", "KGM", "500", "KGM"] =
      (match firstIdxWhere (fun l => decide (pyStrip l = "KGM"))
          ["x", "KGM", "500", "KGM"] with
       | none => none
       | some k =>
           if pyIsdigit (getLineSafe ["x", "KGM", "500", "KGM"] ((k : Int) - 1)) then
             some (digitsToNat (getLineSafe ["x", "KGM", "500", "KGM"]
               ((k : Int) - 1)))
           else none) ∧
    extractTotGroMas ["1200", "KGM"] = some 1200 :=
  ⟨(c6_total_gross_mass ["x", "KGM", "500", "KGM"]).1,
    (c6_total_gross_mass ["1200", "KGM"]).2.2⟩

/-- C10: after receiver extraction the tax-identification field is
explicitly null for every input — the final assignment is unconditional —
and on a concrete receiver block whose anchor is followed by a TIN-shaped
line the loop does record a TIN which the overwrite then discards. -/
theorem c10_receiver_tin_overwritten :
    (∀ (lines : List String) (dsi : Nat),
        (extractTraconce1 lines dsi).TINCE159 = Slot.val none) ∧
    (traconce1Pre c10Lines 0).TINCE159 = Slot.val (some "DE1234567") ∧
    (extractTraconce1 c10Lines 0).TINCE159 = Slot.val none := by
  exact ⟨fun lines dsi => rfl, rfl, rfl⟩

/-- C9: when no line carries the declaration-type code landmark and no line
an LRN label, the Section Locator returns the fixed default offset 80, and
the assembled run anchors every subsequent extractor at that offset. -/
theorem c9_default_offset (lines : List String)
    (hex : ∀ l ∈ lines, eximLine l = false)
    (hlrn : ∀ l ∈ lines, hasLRNLabel l = false) :
    findDataSection lines = 80 ∧
    extractAll lines =
      { HEAHEA := extractHeahea lines 80
      , TRAEXPEX1 := extractTraexpex1 lines 80
      , TRACONCE1 := extractTraconce1 lines 80
      , SEAINFSLI := initSeaInf
      , GOOITEGDS := extractGooitegds lines 80 } := by
  have h80 : findDataSection lines = 80 := by
    unfold findDataSection
    rw [firstIdxWhere_eq_none _ _ hex, firstIdxWhere_eq_none _ _ hlrn]
  refine ⟨h80, ?_⟩
  unfold extractAll
  rw [h80]

/-- Witness for C9 at a one-line document with neither landmark. -/
theorem c9_default_offset_witness :
    findDataSection ["abc"] = 80 ∧
    extractAll ["abc"] =
      { HEAHEA := extractHeahea ["abc"] 80
      , TRAEXPEX1 := extractTraexpex1 ["abc"] 80
      , TRACONCE1 := extractTraconce1 ["abc"] 80
      , SEAINFSLI := initSeaInf
      , GOOITEGDS := extractGooitegds ["abc"] 80 } :=
  c9_default_offset ["abc"] (by decide) (by decide)

/-- C2 counterexample: on the empty line sequence the run completes, yet the
assembled record's header carries no `TotGroMasHEA307` key at all — the
unresolved field is an absent key, not a key with an explicit null value,
contradicting the claim that every defined field is present. -/
theorem c2_absent_key_cex :
    (extractAll []).HEAHEA.TotGroMasHEA307 = Slot.absent ∧
    (Slot.absent : Slot Nat) ≠ Slot.val none :=
  ⟨rfl, by decide⟩

/-- C2 (amended): the record shape is guaranteed only section-wise.  The five
top-level sections always exist, the goods list is never empty, the sender
postal-code and receiver tax-id fields are always present and explicitly
null, and the seal section keeps its fixed initial shape; every other
field is present exactly when its extractor matched, and an unmatched field
is an absent key — never a key holding an explicit null. -/
theorem c2_null_shape_amended (lines : List String) :
    (extractAll lines).TRAEXPEX1.PosCodEX123 = Slot.val none ∧
    (extractAll lines).TRACONCE1.TINCE159 = Slot.val none ∧
    (extractAll lines).SEAINFSLI = initSeaInf ∧
    (extractAll lines).GOOITEGDS ≠ [] ∧
    (extractAll lines).HEAHEA.TotGroMasHEA307 ≠ Slot.val none ∧
    (extractAll lines).HEAHEA.IdeOfMeaOfTraAtDHEA78 ≠ Slot.val none ∧
    (extractAll lines).HEAHEA.NatOfMeaOfTraCroHEA87 ≠ Slot.val none ∧
    (extractAll lines).HEAHEA.TraModAtBorHEA76 ≠ Slot.val none ∧
    (extractAll lines).HEAHEA.CouOfDisCodHEA55 ≠ Slot.val none ∧
    (extractAll lines).HEAHEA.CouOfDesCodHEA30 ≠ Slot.val none ∧
    (extractAll lines).HEAHEA.ConIndHEA96 ≠ Slot.val none ∧
    (extractAll lines).HEAHEA.DecPlaHEA394 ≠ Slot.val none ∧
    (extractAll lines).TRAEXPEX1.TINEX159 ≠ Slot.val none ∧
    (extractAll lines).TRAEXPEX1.NamEX17 ≠ Slot.val none ∧
    (extractAll lines).TRAEXPEX1.StrAndNumEX122 ≠ Slot.val none ∧
    (extractAll lines).TRAEXPEX1.CitEX124 ≠ Slot.val none ∧
    (extractAll lines).TRAEXPEX1.CouEX125 ≠ Slot.val none ∧
    (extractAll lines).TRACONCE1.NamCE17 ≠ Slot.val none ∧
    (extractAll lines).TRACONCE1.StrAndNumCE122 ≠ Slot.val none ∧
    (extractAll lines).TRACONCE1.PosCodCE123 ≠ Slot.val none ∧
    (extractAll lines).TRACONCE1.CitCE124 ≠ Slot.val none ∧
    (extractAll lines).TRACONCE1.CouCE125 ≠ Slot.val none := by
  refine ⟨rfl, rfl, rfl, extractGooitegds_ne_nil _ _,
    toSlot_ne_val_none _, toSlot_ne_val_none _, toSlot_ne_val_none _,
    toSlot_ne_val_none _, toSlot_ne_val_none _, toSlot_ne_val_none _,
    toSlot_ne_val_none _, toSlot_ne_val_none _, toSlot_ne_val_none _,
    toSlot_ne_val_none _, toSlot_ne_val_none _, toSlot_ne_val_none _, ?_,
    toSlot_ne_val_none _, toSlot_ne_val_none _, toSlot_ne_val_none _,
    toSlot_ne_val_none _, toSlot_ne_val_none _⟩
  show (extractTraexpex1 lines (findDataSection lines)).CouEX125 ≠ Slot.val none
  unfold extractTraexpex1
  cases senderLoop lines (findDataSection lines) <;> simp

/-- C8 counterexample: the vehicle-identity extractor finds no match on this
input and the run completes, but the field surfaces as an absent key rather
than as an explicit null. -/
theorem c8_absent_not_null_cex :
    (extractAll ["no vehicle here"]).HEAHEA.IdeOfMeaOfTraAtDHEA78 = Slot.absent ∧
    (Slot.absent : Slot String) ≠ Slot.val none :=
  ⟨rfl, by decide⟩

/-- C8 (amended): a field extractor that finds no match raises no error —
the run continues, the remaining extractors still execute (the goods
segmenter still produces a non-empty item list, the sender and receiver
conventions are still applied) — but the unmatched field surfaces as an
absent key, with explicit nulls only for the unconditionally-set fields. -/
theorem c8_no_match_continues (lines : List String)
    (h : (extractAll lines).HEAHEA.TotGroMasHEA307 = Slot.absent) :
    (extractAll lines).GOOITEGDS = extractGooitegds lines (findDataSection lines) ∧
    (extractAll lines).GOOITEGDS ≠ [] ∧
    (extractAll lines).TRAEXPEX1 = extractTraexpex1 lines (findDataSection lines) ∧
    (extractAll lines).TRACONCE1.TINCE159 = Slot.val none ∧
    (extractAll lines).TRAEXPEX1.PosCodEX123 = Slot.val none :=
  ⟨rfl, extractGooitegds_ne_nil _ _, rfl, rfl, rfl⟩

/-- Witness for C8 at a one-line input whose mass extractor finds no match. -/
theorem c8_no_match_continues_witness :
    (extractAll ["x"]).HEAHEA.TotGroMasHEA307 = Slot.absent ∧
    ((extractAll ["x"]).GOOITEGDS = extractGooitegds ["x"] (findDataSection ["x"]) ∧
      (extractAll ["x"]).GOOITEGDS ≠ [] ∧
      (extractAll ["x"]).TRAEXPEX1 = extractTraexpex1 ["x"] (findDataSection ["x"]) ∧
      (extractAll ["x"]).TRACONCE1.TINCE159 = Slot.val none ∧
      (extractAll ["x"]).TRAEXPEX1.PosCodEX123 = Slot.val none) :=
  ⟨rfl, c8_no_match_continues ["x"] rfl⟩

/-- C1 counterexample: in `c1Lines` the section offset is the default 80 and
two 8-digit commodity lines lie at or after it (indices 85 and 100), yet
the segmenter — which never looks before line 100 — produces only one item,
so the item count does not equal the number of landmarks at or after the
offset. -/
theorem c1_count_cex :
    findDataSection c1Lines = 80 ∧
    ((List.range c1Lines.length).filter (fun i =>
        decide (findDataSection c1Lines ≤ i) &&
        isDigitsLen 8 (pyStrip (lineAt c1Lines i)))).length = 2 ∧
    (extractGooitegds c1Lines (findDataSection c1Lines)).length = 1 :=
  ⟨rfl, rfl, rfl⟩

/-- C1 (amended): the goods list always has `max(N, 1)` items, where `N` is
the number of 8-digit lines at index at least `max(section offset, 100)` —
the segmenter additionally ignores everything before line 100; the items'
sequence numbers are the decimal strings "1".."N" in landmark (document)
order, and zero landmarks yield exactly the single placeholder item with
all fields null/empty. -/
theorem c1_item_count_amended (lines : List String) (dsi : Nat) :
    (extractGooitegds lines dsi).length =
      max (commodityPositions lines dsi).length 1 ∧
    (extractGooitegds lines dsi).map (fun it => it.IteNumGDS7) =
      (List.range (max (commodityPositions lines dsi).length 1)).map
        (fun k => toString (k + 1)) ∧
    (commodityPositions lines dsi).length =
      ((List.range lines.length).filter (fun i =>
          decide (max dsi 100 ≤ i) &&
          isDigitsLen 8 (pyStrip (lineAt lines i)))).length ∧
    (commodityPositions lines dsi = [] →
      extractGooitegds lines dsi = [emptyItem]) := by
  refine ⟨extractGooitegds_length lines dsi, extractGooitegds_seqnums lines dsi,
    commodityPositions_count lines dsi, ?_⟩
  intro h
  simp [extractGooitegds, h]

/-- Witness for C1 (amended): the placeholder branch discharged on the empty
document, plus the counting part at the counterexample document. -/
theorem c1_item_count_amended_witness :
    commodityPositions [] 0 = [] ∧
    extractGooitegds [] 0 = [emptyItem] ∧
    (extractGooitegds c1Lines 80).length =
      max (commodityPositions c1Lines 80).length 1 :=
  ⟨rfl, (c1_item_count_amended [] 0).2.2.2 rfl, (c1_item_count_amended c1Lines 80).1⟩

/-- C5: in every goods item produced by the generic segmenter the
reference-document list never repeats a (type, reference) pair and every
recorded type belongs to the generic engine's fixed vocabulary; the customs
engine's per-item collector satisfies the same invariant over its own
vocabulary. -/
theorem c5_doc_dedup_vocab :
    (∀ (lines : List String) (dsi : Nat), ∀ item ∈ extractGooitegds lines dsi,
        item.PRODOCDC2.Pairwise docPairNe ∧
        ∀ d ∈ item.PRODOCDC2, d.DocTypDC21 ∈ genericDocVocab) ∧
    (∀ (lines : List String) (ci itemEnd : Nat),
        (collectDocsCustoms lines ci itemEnd).Pairwise docPairNe ∧
        ∀ d ∈ collectDocsCustoms lines ci itemEnd,
          d.DocTypDC21 ∈ customsDocVocab) := by
  constructor
  · intro lines dsi item hitem
    unfold extractGooitegds at hitem
    by_cases h : commodityPositions lines dsi = []
    · simp only [h, if_true] at hitem
      rw [List.mem_singleton] at hitem
      subst hitem
      simp [emptyItem]
    · simp only [h, if_false] at hitem
      obtain ⟨p, _, rfl⟩ := List.mem_map.mp hitem
      by_cases hn : p.1 + 1 = 1
      · have hPRO : (buildItem lines (commodityPositions lines dsi) (p.1 + 1)
            p.2.1 p.2.2).PRODOCDC2 = collectDocsGeneric lines := by
          simp [buildItem, hn]
        rw [hPRO]
        exact collectDocsGeneric_sound lines
      · have hPRO : (buildItem lines (commodityPositions lines dsi) (p.1 + 1)
            p.2.1 p.2.2).PRODOCDC2 = [] := by
          simp [buildItem, hn]
        rw [hPRO]
        simp
  · intro lines ci itemEnd
    unfold collectDocsCustoms
    split
    · simp
    · rename_i i heq
      by_cases ht : customsDocText lines i = ""
      · simp [ht]
      · simp only [ht, if_false]
        exact customsDedup_sound _ []

/-- Witness for C5: the generic half discharged at the empty document's
placeholder item, and the customs half evaluated at a two-line item window
holding one `AUN-MK19/2024` citation. -/
theorem c5_doc_dedup_vocab_witness :
    (emptyItem ∈ extractGooitegds [] 0 ∧
      emptyItem.PRODOCDC2.Pairwise docPairNe ∧
      ∀ d ∈ emptyItem.PRODOCDC2, d.DocTypDC21 ∈ genericDocVocab) ∧
    (collectDocsCustoms ["44 Дополнителни информации", "AUN-MK19/2024"] 0 2 =
        [{ DocTypDC21 := "AUN", DocRefDC23 := "MK19/2024" }] ∧
      (collectDocsCustoms ["44 Дополнителни информации", "AUN-MK19/2024"] 0 2).Pairwise
        docPairNe ∧
      ∀ d ∈ collectDocsCustoms ["44 Дополнителни информации", "AUN-MK19/2024"] 0 2,
        d.DocTypDC21 ∈ customsDocVocab) := by
  have hmem : emptyItem ∈ extractGooitegds [] 0 := by
    rw [show extractGooitegds [] 0 = [emptyItem] from rfl]
    exact List.mem_singleton_self _
  obtain ⟨h1, h2⟩ := c5_doc_dedup_vocab.1 [] 0 emptyItem hmem
  obtain ⟨h3, h4⟩ :=
    c5_doc_dedup_vocab.2 ["44 Дополнителни информации", "AUN-MK19/2024"] 0 2
  exact ⟨⟨hmem, h1, h2⟩, rfl, h3, h4⟩

/-- Witness for C4 at a concrete declaration-shaped record. -/
theorem c4_comparator_self_diag_witness :
    wfKeys demoDecl = true ∧
    (∃ ms : List String, compareJ "" demoDecl demoDecl = Except.ok ([], ms) ∧
      ms.length = leafCount demoDecl) :=
  ⟨rfl, c4_comparator_self_diag demoDecl rfl ""⟩
